import Mathlib

/-!
# Verification of the Birdwatch matrix-factorization core

Shallow embedding of `src/static/sourcecode/matrix_factorization.py` and
`src/static/sourcecode/process_data.py`.  Tables (pandas `DataFrame`s) are
embedded as lists of row structures; missing values (`NaN`) are embedded as
`Option.none`; floating-point numbers are embedded as rationals.  Fallible
code (a Python `assert`) is embedded as an `Option`-returning function.
-/

namespace Birdwatch

/-! ## BiasedMatrixFactorization (matrix_factorization.py, lines 9-42)

The model state after construction/training: per-user and per-item factor
rows (`torch.nn.Embedding` weight rows, one `List ℚ` of length `n_factors`
per entity), scalar per-entity intercepts, and the global intercept. -/

structure BiasedMatrixFactorization where
  user_factors : List (List ℚ)
  item_factors : List (List ℚ)
  user_intercepts : List ℚ
  item_intercepts : List ℚ
  use_global_intercept : Bool
  global_intercept : ℚ

/-- `(self.user_factors(user) * self.item_factors(item)).sum(1)`:
elementwise product of the two factor rows, then summed. -/
def factorDot (xs ys : List ℚ) : ℚ :=
  (List.zipWith (fun a b => a * b) xs ys).sum

/-- `BiasedMatrixFactorization.forward` (lines 36-42):
`pred = user_intercepts(u) + item_intercepts(i)`;
`pred += (user_factors(u) * item_factors(i)).sum(1)`;
`if use_global_intercept: pred += global_intercept`.
The embedding lookups index into the weight tables by the dense ids. -/
def BiasedMatrixFactorization.forward (m : BiasedMatrixFactorization)
    (user item : Nat) : ℚ :=
  let pred := m.user_intercepts.getD user 0 + m.item_intercepts.getD item 0
  let pred := pred + factorDot (m.user_factors.getD user []) (m.item_factors.getD item [])
  if m.use_global_intercept then pred + m.global_intercept else pred

/-! ## The training objective of run_mf (matrix_factorization.py, lines 105-141)

One epoch computes `loss = criterion(y_pred, rating)` (`torch.nn.MSELoss`),
then for each `(name, param)` of `mf_model.named_parameters()` adds
`l2_lambda_intercept * (param**2).mean()` when `"intercept" in name` and
`l2_lambda * (param**2).mean()` otherwise, where
`l2_lambda_intercept = l2_lambda * l2_intercept_multiplier` (line 107). -/

/-- One step of the character-list substring search. -/
def charMatchAt : List Char → List Char → Bool
  | [], _ => true
  | _ :: _, [] => false
  | a :: as, b :: bs => a == b && charMatchAt as bs

/-- Substring occurrence over character lists. -/
def charSeqContains (pat : List Char) : List Char → Bool
  | [] => pat.isEmpty
  | b :: bs => charMatchAt pat (b :: bs) || charSeqContains pat bs

/-- Python's `"intercept" in name` test from the regularization loop. -/
def containsIntercept (name : String) : Bool :=
  charSeqContains "intercept".toList name.toList

/-- `(param**2).mean()`: mean of the squared entries of a tensor. -/
def meanSq (xs : List ℚ) : ℚ :=
  (xs.map (fun x => x ^ 2)).sum / (xs.length : ℚ)

/-- `torch.nn.MSELoss()(preds, targets)`: mean squared error. -/
def mseLoss (preds targets : List ℚ) : ℚ :=
  (List.zipWith (fun p t => (p - t) ^ 2) preds targets).sum / (preds.length : ℚ)

/-- `y_pred = mf_model(row, col)`: the forward pass over the index vectors. -/
def predictions (m : BiasedMatrixFactorization) (row col : List Nat) : List ℚ :=
  List.zipWith m.forward row col

/-- `mf_model.named_parameters()`: the five registered parameter tensors of
`BiasedMatrixFactorization.__init__` (lines 25-30), flattened, with their
torch names. -/
def namedParameters (m : BiasedMatrixFactorization) : List (String × List ℚ) :=
  [("user_factors.weight", m.user_factors.join),
   ("item_factors.weight", m.item_factors.join),
   ("user_intercepts.weight", m.user_intercepts),
   ("item_intercepts.weight", m.item_intercepts),
   ("global_intercept", [m.global_intercept])]

/-- The regularization accumulation of lines 133-139. -/
def l2RegLoss (m : BiasedMatrixFactorization) (l2_lambda l2_intercept_multiplier : ℚ) : ℚ :=
  (namedParameters m).foldl
    (fun acc p =>
      if containsIntercept p.1 then acc + (l2_lambda * l2_intercept_multiplier) * meanSq p.2
      else acc + l2_lambda * meanSq p.2)
    0

/-- The total objective minimized in one epoch of `run_mf` (lines 131-141):
`loss = criterion(y_pred, rating)` plus the accumulated L2 terms. -/
def epochLoss (m : BiasedMatrixFactorization) (row col : List Nat) (rating : List ℚ)
    (l2_lambda l2_intercept_multiplier : ℚ) : ℚ :=
  mseLoss (predictions m row col) rating + l2RegLoss m l2_lambda l2_intercept_multiplier

/-! ## The data pipeline of run_mf (matrix_factorization.py, lines 77-97)

The `ratings` argument at this point has the four columns selected by
`filter_ratings`: `raterParticipantId, noteId, helpfulNum, createdAtMillis`;
any of them may hold a missing value. -/

structure MFRatingRow where
  raterParticipantId : Option Nat
  noteId : Option Nat
  helpfulNum : Option ℚ
  createdAtMillis : Option ℚ
deriving DecidableEq, Repr

/-- The row contains a missing value in some column. -/
def MFRatingRow.hasMissing (r : MFRatingRow) : Bool :=
  r.raterParticipantId.isNone || r.noteId.isNone ||
    r.helpfulNum.isNone || r.createdAtMillis.isNone

/-- `noteData = ratings; noteData.dropna(0, inplace=True)` (lines 78-79):
`noteData` aliases the caller's frame and `inplace=True` mutates it, so this
is the caller's `ratings` table after `run_mf` returns. -/
def run_mf_ratings_after (ratings : List MFRatingRow) : List MFRatingRow :=
  ratings.filter (fun r => !r.hasMissing)

/-- `pandas.DataFrame.drop_duplicates` / `pandas.unique`: keep the first
occurrence of each element, preserving order. -/
def dropDuplicates {α : Type} [DecidableEq α] : List α → List α
  | [] => []
  | x :: xs => x :: dropDuplicates (xs.filter (fun y => decide (y ≠ x)))
termination_by l => l.length
decreasing_by
  simp only [List.length_cons]
  have := List.length_filter_le (fun y => decide (y ≠ x)) xs
  omega

/-- `noteIdMap` (lines 81-87): the distinct note ids of the already
`dropna`-ed table, in order of first appearance (`pd.unique`); the dense
`noteIndex` of an id is its position in this list. -/
def run_mf_noteIdMap (ratings : List MFRatingRow) : List (Option Nat) :=
  dropDuplicates ((run_mf_ratings_after ratings).map MFRatingRow.noteId)

/-- `raterIdMap` (lines 88-94). -/
def run_mf_raterIdMap (ratings : List MFRatingRow) : List (Option Nat) :=
  dropDuplicates ((run_mf_ratings_after ratings).map MFRatingRow.raterParticipantId)

/-! ## flip_factors_for_identification (matrix_factorization.py, lines 171-195)

The two parameter tables as built by `run_mf` (lines 81-94 and 156-159):
columns `noteId, noteIndex, noteFactor1, noteIntercept` and
`raterParticipantId, raterIndex, raterFactor1, raterIntercept`.
Factor columns are `Option ℚ` so that a `NaN` entry (checked by the code via
`pd.isna`) is representable as `none`. -/

structure NoteParamRow where
  noteId : Nat
  noteIndex : Nat
  noteFactor1 : Option ℚ
  noteIntercept : ℚ
deriving DecidableEq, Repr

structure RaterParamRow where
  raterParticipantId : Nat
  raterIndex : Nat
  raterFactor1 : Option ℚ
  raterIntercept : ℚ
deriving DecidableEq, Repr

/-- `raterParams.loc[~pd.isna(raterParams["raterFactor1"]), "raterFactor1"]`:
the non-`NaN` entries of the rater factor column. -/
def raterFactorsNonNa (raterParams : List RaterParamRow) : List ℚ :=
  raterParams.filterMap (fun r => r.raterFactor1)

/-- `(raterFactors < 0).sum()`. -/
def negCount (xs : List ℚ) : Nat :=
  (xs.filter (fun x => decide (x < 0))).length

/-- `(raterFactors != 0).sum()`. -/
def nonzeroCount (xs : List ℚ) : Nat :=
  (xs.filter (fun x => decide (x ≠ 0))).length

/-- Count of strictly positive entries (not in the source; used to relate
`negCount` and `nonzeroCount`). -/
def posCount (xs : List ℚ) : Nat :=
  (xs.filter (fun x => decide (0 < x))).length

/-- `propNegativeRaterFactors < 0.5` with IEEE semantics: when
`(raterFactors != 0).sum()` is zero the quotient `0/0` is `NaN`, and
`NaN < 0.5` evaluates to `False`. -/
def propNegativeLtHalf (xs : List ℚ) : Bool :=
  if nonzeroCount xs = 0 then false
  else decide ((negCount xs : ℚ) / (nonzeroCount xs : ℚ) < 1 / 2)

/-- `propNegativeRaterFactors >= 0.5` with IEEE semantics: `NaN >= 0.5` is
`False`, so a zero denominator fails the assertion. -/
def propNegativeGeHalf (xs : List ℚ) : Bool :=
  if nonzeroCount xs = 0 then false
  else decide ((1 : ℚ) / 2 ≤ (negCount xs : ℚ) / (nonzeroCount xs : ℚ))

/-- `noteParams["noteFactor1"] = noteParams["noteFactor1"] * -1`
(`NaN * -1` stays `NaN`). -/
def negateNoteFactors (noteParams : List NoteParamRow) : List NoteParamRow :=
  noteParams.map (fun r => { r with noteFactor1 := r.noteFactor1.map (fun x => x * (-1)) })

/-- `raterParams["raterFactor1"] = raterParams["raterFactor1"] * -1`. -/
def negateRaterFactors (raterParams : List RaterParamRow) : List RaterParamRow :=
  raterParams.map (fun r => { r with raterFactor1 := r.raterFactor1.map (fun x => x * (-1)) })

/-- Lines 183-189 of `flip_factors_for_identification`: the (in-place)
mutation of the two tables, performed before the final assertion is
evaluated. -/
def flipFactorsCore (noteParams : List NoteParamRow) (raterParams : List RaterParamRow) :
    List NoteParamRow × List RaterParamRow :=
  if propNegativeLtHalf (raterFactorsNonNa raterParams) then
    (negateNoteFactors noteParams, negateRaterFactors raterParams)
  else (noteParams, raterParams)

/-- `flip_factors_for_identification` (lines 171-195): mutate, then
`assert propNegativeRaterFactors >= 0.5`; `none` models the
`AssertionError`. -/
def flip_factors_for_identification (noteParams : List NoteParamRow)
    (raterParams : List RaterParamRow) :
    Option (List NoteParamRow × List RaterParamRow) :=
  let p := flipFactorsCore noteParams raterParams
  if propNegativeGeHalf (raterFactorsNonNa p.2) then some p else none

/-! ## process_data.py: constants

`constants.py` is imported by both source files but is not under `src/`. -/

/-- Modelled from the spec: `constants.py` (not under `src/`) supplies the TSV
value of the categorical not-helpful answer of the V2 rating form; only its
distinctness from the other two levels matters here. -/
def notHelpfulValueTsv : String := "NOT_HELPFUL"

/-- Modelled from the spec: the TSV value of the categorical somewhat-helpful
answer of the V2 rating form. -/
def somewhatHelpfulValueTsv : String := "SOMEWHAT_HELPFUL"

/-- Modelled from the spec: the TSV value of the categorical helpful answer of
the V2 rating form. -/
def helpfulValueTsv : String := "HELPFUL"

/-- Modelled from the spec: the classification value of a note that says the
tweet is misleading. -/
def notesSaysTweetIsMisleadingKey : String := "MISINFORMED_OR_POTENTIALLY_MISLEADING"

/-- Modelled from the spec: the classification value of a note that says the
tweet is not misleading. -/
def noteSaysTweetIsNotMisleadingKey : String := "NOT_MISLEADING"

/-! ## process_data.py: rows of the three input tables -/

/-- A ratings row, with the columns `preprocess_data` and
`_filter_misleading_notes` access: rater id, note id, timestamp, the V1
boolean helpfulness flags and the V2 categorical helpfulness level (each
possibly missing). -/
structure RatingRow where
  raterParticipantId : Nat
  noteId : Nat
  createdAtMillis : ℚ
  helpful : Option ℚ
  notHelpful : Option ℚ
  helpfulnessLevel : Option String
deriving DecidableEq, Repr

/-- A notes row with the columns accessed here (`notes[[noteIdKey,
classificationKey]]`); `classification` is missing for a deleted note. -/
structure NoteRow where
  noteId : Nat
  classification : Option String
deriving DecidableEq, Repr

/-- A note-status-history row with the columns accessed here
(`noteStatusHistory[[noteIdKey, createdAtMillisKey]]`). -/
structure NoteStatusHistoryRow where
  noteId : Nat
  createdAtMillis : Option ℚ
deriving DecidableEq, Repr

/-! ## Helpfulness unification (preprocess_data, lines 264-270) -/

/-- The sequence of `ratings.loc[...] = ...` assignments of lines 264-269:
start from `NaN` and overwrite, in order, on `helpful == 1`,
`notHelpful == 1`, and the three categorical levels (a later assignment wins
when several conditions hold). -/
def assignHelpfulNum (r : RatingRow) : Option ℚ :=
  let h : Option ℚ := none
  let h := if r.helpful = some 1 then some 1 else h
  let h := if r.notHelpful = some 1 then some 0 else h
  let h := if r.helpfulnessLevel = some notHelpfulValueTsv then some 0 else h
  let h := if r.helpfulnessLevel = some somewhatHelpfulValueTsv then some (1 / 2) else h
  let h := if r.helpfulnessLevel = some helpfulValueTsv then some 1 else h
  h

/-- Line 270, `ratings = ratings.loc[~pd.isna(ratings[helpfulNumKey])]`: the
unified table keeps exactly the rows whose `helpfulNum` is not `NaN`,
pairing each retained row with its `helpfulNum`. -/
def unifyHelpfulness (ratings : List RatingRow) : List (RatingRow × ℚ) :=
  ratings.filterMap (fun r => (assignHelpfulNum r).map (fun q => (r, q)))

/-- The amended C3 mapping, stated from the spec's words with the precedence
the code's assignment order induces: a recognized categorical level decides;
otherwise `notHelpful = 1` decides; otherwise `helpful = 1` decides;
otherwise the row has no recognized signal. -/
def helpfulNumSpec (r : RatingRow) : Option ℚ :=
  if r.helpfulnessLevel = some helpfulValueTsv then some 1
  else if r.helpfulnessLevel = some somewhatHelpfulValueTsv then some (1 / 2)
  else if r.helpfulnessLevel = some notHelpfulValueTsv then some 0
  else if r.notHelpful = some 1 then some 0
  else if r.helpful = some 1 then some 1
  else none

/-! ## _filter_misleading_notes (process_data.py, lines 107-181) -/

/-- `ratings.merge(notes[[noteIdKey, classificationKey]], on=noteIdKey,
how="left")`: each rating row is paired with the classification of every
notes row sharing its note id, or with `NaN` when no notes row matches. -/
def mergeClassification (ratings : List RatingRow) (notes : List NoteRow) :
    List (RatingRow × Option String) :=
  ratings.bind (fun r =>
    let ms := notes.filter (fun n => n.noteId == r.noteId)
    if ms.isEmpty then [(r, none)]
    else ms.map (fun n => (r, n.classification)))

/-- The second merge (lines 131-136): join with
`noteStatusHistory[[noteIdKey, createdAtMillisKey]]`, the joined column
(`createdAtMillis_nsh`) being `NaN` when no row matches. -/
def mergeNSH (merged : List (RatingRow × Option String))
    (noteStatusHistory : List NoteStatusHistoryRow) :
    List (RatingRow × Option String × Option ℚ) :=
  merged.bind (fun p =>
    let ms := noteStatusHistory.filter (fun h => h.noteId == p.1.noteId)
    if ms.isEmpty then [(p.1, p.2, none)]
    else ms.map (fun h => (p.1, p.2, h.createdAtMillis)))

/-- `_filter_misleading_notes` (lines 129-181): keep a merged row when
`notDeletedMisleading` (classification present and equal to the misleading
value) or `deletedButInNSH` (classification absent and joined
`createdAtMillis_nsh` not `NaN`) holds, then drop the helper columns. -/
def _filter_misleading_notes (notes : List NoteRow) (ratings : List RatingRow)
    (noteStatusHistory : List NoteStatusHistoryRow) : List RatingRow :=
  let merged := mergeNSH (mergeClassification ratings notes) noteStatusHistory
  let kept := merged.filter (fun t =>
    (!t.2.1.isNone && decide (t.2.1 = some notesSaysTweetIsMisleadingKey)) ||
    (t.2.1.isNone && !t.2.2.isNone))
  kept.map (fun t => t.1)

/-- The left-merge lookup when note ids are unique: the classification of the
(single) notes row with this id, `none` when the note is absent or its
classification is missing. -/
def classificationOf (notes : List NoteRow) (nid : Nat) : Option String :=
  match notes.find? (fun n => n.noteId == nid) with
  | none => none
  | some n => n.classification

/-- The joined `createdAtMillis_nsh` value when note-status-history ids are
unique. -/
def nshCreatedAtOf (noteStatusHistory : List NoteStatusHistoryRow) (nid : Nat) : Option ℚ :=
  match noteStatusHistory.find? (fun h => h.noteId == nid) with
  | none => none
  | some h => h.createdAtMillis

/-! ## remove_duplicate_ratings / remove_duplicate_notes (lines 184-220) -/

/-- `remove_duplicate_ratings` (lines 184-200): `ratings.drop_duplicates()`,
then `assert numRatings == numUniqueRaterIdNoteIdPairs` where the latter is
`len(ratings.groupby([raterParticipantIdKey, noteIdKey]).head(1))`, the
number of distinct (rater id, note id) pairs; `none` models the
`AssertionError`. -/
def remove_duplicate_ratings (ratings : List RatingRow) : Option (List RatingRow) :=
  let deduped := dropDuplicates ratings
  let numUniquePairs :=
    (dropDuplicates (deduped.map (fun r => (r.raterParticipantId, r.noteId)))).length
  if deduped.length = numUniquePairs then some deduped else none

/-- `remove_duplicate_notes` (lines 203-220): `notes.drop_duplicates()`, then
`assert numNotes == len(np.unique(notes[noteIdKey]))`. -/
def remove_duplicate_notes (notes : List NoteRow) : Option (List NoteRow) :=
  let deduped := dropDuplicates notes
  let numUniqueNotes := (dropDuplicates (deduped.map (fun n => n.noteId))).length
  if deduped.length = numUniqueNotes then some deduped else none

/-! ## filter_ratings (process_data.py, lines 291-354)

`ratingsTriplets = ratings[[raterParticipantIdKey, noteIdKey, helpfulNumKey,
createdAtMillisKey]]` selects four columns; the two thresholds
`c.minNumRatersPerNote` and `c.minNumRatingsPerRater` come from the
configuration module and are passed here as parameters. -/

structure RatingTriplet where
  raterParticipantId : Nat
  noteId : Nat
  helpfulNum : ℚ
  createdAtMillis : ℚ
deriving DecidableEq, Repr

/-- `ratings.groupby(noteIdKey).size()` at one note id. -/
def noteRatingCount (t : List RatingTriplet) (nid : Nat) : Nat :=
  (t.filter (fun r => r.noteId == nid)).length

/-- `ratings.groupby(raterParticipantIdKey).size()` at one rater id. -/
def raterRatingCount (t : List RatingTriplet) (rid : Nat) : Nat :=
  (t.filter (fun r => r.raterParticipantId == rid)).length

/-- One note-count pass (`n[n[0] >= c.minNumRatersPerNote]` followed by the
merge back): keep the rows whose note has at least `minNumRatersPerNote`
rows in the current table. -/
def filterNotesWithMinRatings (minNumRatersPerNote : Nat) (t : List RatingTriplet) :
    List RatingTriplet :=
  t.filter (fun r => minNumRatersPerNote ≤ noteRatingCount t r.noteId)

/-- The rater-count pass (`r[r[0] >= c.minNumRatingsPerRater]` followed by
the merge back). -/
def filterRatersWithMinRatings (minNumRatingsPerRater : Nat) (t : List RatingTriplet) :
    List RatingTriplet :=
  t.filter (fun r => minNumRatingsPerRater ≤ raterRatingCount t r.raterParticipantId)

/-- `filter_ratings` (lines 291-354): note filter, then rater filter, then
the note filter once more — and nothing further. -/
def filter_ratings (minNumRatersPerNote minNumRatingsPerRater : Nat)
    (ratings : List RatingTriplet) : List RatingTriplet :=
  let ratingsNoteFiltered := filterNotesWithMinRatings minNumRatersPerNote ratings
  let ratingsDoubleFiltered :=
    filterRatersWithMinRatings minNumRatingsPerRater ratingsNoteFiltered
  filterNotesWithMinRatings minNumRatersPerNote ratingsDoubleFiltered

end Birdwatch

open Birdwatch

/-- C1: with scalar (length-1) factor rows, the forward prediction is
`user_intercept[u] + item_intercept[i] + user_factor[u] * item_factor[i]`,
plus the global intercept exactly when `use_global_intercept` is enabled. -/
theorem forward_eq_biases_plus_factor_product
    (m : BiasedMatrixFactorization) (u i : Nat) (fu fi : ℚ)
    (hu : m.user_factors.getD u [] = [fu]) (hi : m.item_factors.getD i [] = [fi]) :
    (m.use_global_intercept = true →
      m.forward u i =
        m.user_intercepts.getD u 0 + m.item_intercepts.getD i 0 + fu * fi
          + m.global_intercept) ∧
    (m.use_global_intercept = false →
      m.forward u i =
        m.user_intercepts.getD u 0 + m.item_intercepts.getD i 0 + fu * fi) := by
  unfold BiasedMatrixFactorization.forward
  rw [hu, hi]
  constructor <;> intro hg <;> simp [hg, factorDot]

/-- Concrete instantiation of `forward_eq_biases_plus_factor_product`. -/
theorem forward_eq_biases_plus_factor_product_witness :
    (BiasedMatrixFactorization.mk [[2]] [[3]] [5] [7] true 11).forward 0 0 =
      5 + 7 + 2 * 3 + 11 :=
  (forward_eq_biases_plus_factor_product
    (BiasedMatrixFactorization.mk [[2]] [[3]] [5] [7] true 11) 0 0 2 3 rfl rfl).1 rfl

/-! ### Counting lemmas for the sign-flip normalizer -/

theorem raterFactorsNonNa_negate (rp : List RaterParamRow) :
    raterFactorsNonNa (negateRaterFactors rp) =
      (raterFactorsNonNa rp).map (fun x => x * (-1)) := by
  induction rp with
  | nil => rfl
  | cons r rp ih =>
    cases hr : r.raterFactor1 <;>
      simp [raterFactorsNonNa, negateRaterFactors, List.filterMap_cons, hr] <;>
      simpa [raterFactorsNonNa, negateRaterFactors] using ih

theorem negCount_map_negOne (xs : List ℚ) :
    negCount (xs.map (fun x => x * (-1))) = posCount xs := by
  induction xs with
  | nil => rfl
  | cons x xs ih =>
    by_cases hx : 0 < x
    · have hx' : x * (-1) < 0 := by linarith
      simp [negCount, posCount, List.filter_cons, hx, hx'] at ih ⊢
      omega
    · have hx' : ¬(x * (-1) < 0) := by
        intro h; exact hx (by linarith)
      simp [negCount, posCount, List.filter_cons, hx, hx'] at ih ⊢
      omega

theorem nonzeroCount_map_negOne (xs : List ℚ) :
    nonzeroCount (xs.map (fun x => x * (-1))) = nonzeroCount xs := by
  induction xs with
  | nil => rfl
  | cons x xs ih =>
    by_cases hx : x = 0
    · simp [nonzeroCount, List.filter_cons, hx] at ih ⊢; omega
    · have hx' : x * (-1) ≠ 0 := by
        intro h; exact hx (by linarith [h])
      simp [nonzeroCount, List.filter_cons, hx, hx'] at ih ⊢
      omega

theorem nonzeroCount_eq_negCount_add_posCount (xs : List ℚ) :
    nonzeroCount xs = negCount xs + posCount xs := by
  induction xs with
  | nil => rfl
  | cons x xs ih =>
    rcases lt_trichotomy x 0 with hx | hx | hx
    · have h1 : x ≠ 0 := ne_of_lt hx
      have h2 : ¬(0 < x) := not_lt.2 (le_of_lt hx)
      simp [nonzeroCount, negCount, posCount, List.filter_cons, h1, hx, h2] at ih ⊢
      omega
    · simp [nonzeroCount, negCount, posCount, List.filter_cons, hx] at ih ⊢
      omega
    · have h1 : x ≠ 0 := (ne_of_lt hx).symm
      have h2 : ¬(x < 0) := not_lt.2 (le_of_lt hx)
      simp [nonzeroCount, negCount, posCount, List.filter_cons, h1, hx, h2] at ih ⊢
      omega

theorem propNegativeLtHalf_iff (xs : List ℚ) :
    propNegativeLtHalf xs = true ↔
      0 < nonzeroCount xs ∧ 2 * negCount xs < nonzeroCount xs := by
  unfold propNegativeLtHalf
  by_cases h : nonzeroCount xs = 0
  · simp [h]
  · have hpos : 0 < nonzeroCount xs := Nat.pos_of_ne_zero h
    have hq : (0 : ℚ) < (nonzeroCount xs : ℚ) := by exact_mod_cast hpos
    rw [if_neg h]
    simp only [decide_eq_true_eq]
    rw [div_lt_div_iff hq (by norm_num : (0 : ℚ) < 2), one_mul]
    constructor
    · intro h'
      refine ⟨hpos, ?_⟩
      have : ((2 * negCount xs : ℕ) : ℚ) < ((nonzeroCount xs : ℕ) : ℚ) := by
        push_cast; linarith
      exact_mod_cast this
    · rintro ⟨-, h'⟩
      have : ((2 * negCount xs : ℕ) : ℚ) < ((nonzeroCount xs : ℕ) : ℚ) := by
        exact_mod_cast h'
      push_cast at this; linarith

theorem propNegativeGeHalf_iff (xs : List ℚ) :
    propNegativeGeHalf xs = true ↔
      0 < nonzeroCount xs ∧ nonzeroCount xs ≤ 2 * negCount xs := by
  unfold propNegativeGeHalf
  by_cases h : nonzeroCount xs = 0
  · simp [h]
  · have hpos : 0 < nonzeroCount xs := Nat.pos_of_ne_zero h
    have hq : (0 : ℚ) < (nonzeroCount xs : ℚ) := by exact_mod_cast hpos
    rw [if_neg h]
    simp only [decide_eq_true_eq]
    rw [div_le_div_iff (by norm_num : (0 : ℚ) < 2) hq, one_mul]
    constructor
    · intro h'
      refine ⟨hpos, ?_⟩
      have : ((nonzeroCount xs : ℕ) : ℚ) ≤ ((2 * negCount xs : ℕ) : ℚ) := by
        push_cast; linarith
      exact_mod_cast this
    · rintro ⟨-, h'⟩
      have : ((nonzeroCount xs : ℕ) : ℚ) ≤ ((2 * negCount xs : ℕ) : ℚ) := by
        exact_mod_cast h'
      push_cast at this; linarith

/-- C2: `flip_factors_for_identification` negates every note factor and every
rater factor exactly when the proportion of nonzero non-`NaN` rater factors
that are negative is below one half (with a zero denominator the proportion is
`NaN` and the comparison is false); whenever it returns, at least half of the
nonzero rater factors are negative; and it fails (`none`, the
`AssertionError`) exactly when there is no nonzero rater factor at all. -/
theorem flip_factors_negates_iff_prop_below_half
    (np : List NoteParamRow) (rp : List RaterParamRow) :
    (flipFactorsCore np rp =
      if 0 < nonzeroCount (raterFactorsNonNa rp) ∧
          2 * negCount (raterFactorsNonNa rp) < nonzeroCount (raterFactorsNonNa rp) then
        (negateNoteFactors np, negateRaterFactors rp)
      else (np, rp)) ∧
    (∀ np' rp', flip_factors_for_identification np rp = some (np', rp') →
      0 < nonzeroCount (raterFactorsNonNa rp') ∧
      nonzeroCount (raterFactorsNonNa rp') ≤ 2 * negCount (raterFactorsNonNa rp')) ∧
    (flip_factors_for_identification np rp = none ↔
      nonzeroCount (raterFactorsNonNa rp) = 0) := by
  have hcore : flipFactorsCore np rp =
      if 0 < nonzeroCount (raterFactorsNonNa rp) ∧
          2 * negCount (raterFactorsNonNa rp) < nonzeroCount (raterFactorsNonNa rp) then
        (negateNoteFactors np, negateRaterFactors rp)
      else (np, rp) := by
    unfold flipFactorsCore
    by_cases hc : 0 < nonzeroCount (raterFactorsNonNa rp) ∧
        2 * negCount (raterFactorsNonNa rp) < nonzeroCount (raterFactorsNonNa rp)
    · rw [if_pos ((propNegativeLtHalf_iff _).2 hc), if_pos hc]
    · have hb : ¬(propNegativeLtHalf (raterFactorsNonNa rp) = true) :=
        fun h => hc ((propNegativeLtHalf_iff _).1 h)
      rw [if_neg hb, if_neg hc]
  refine ⟨hcore, ?_, ?_⟩
  · intro np' rp' h
    unfold flip_factors_for_identification at h
    by_cases hg : propNegativeGeHalf (raterFactorsNonNa (flipFactorsCore np rp).2) = true
    · rw [if_pos hg] at h
      have hp : (flipFactorsCore np rp).2 = rp' := by
        have := Option.some.inj h
        exact congrArg Prod.snd this
      rw [hp] at hg
      exact (propNegativeGeHalf_iff _).1 hg
    · rw [if_neg hg] at h
      exact absurd h (by simp)
  · constructor
    · intro h
      unfold flip_factors_for_identification at h
      by_cases hg : propNegativeGeHalf (raterFactorsNonNa (flipFactorsCore np rp).2) = true
      · rw [if_pos hg] at h; exact absurd h (by simp)
      · by_contra hnz
        have hpos : 0 < nonzeroCount (raterFactorsNonNa rp) := Nat.pos_of_ne_zero hnz
        apply hg
        rw [hcore]
        by_cases hc : 0 < nonzeroCount (raterFactorsNonNa rp) ∧
            2 * negCount (raterFactorsNonNa rp) < nonzeroCount (raterFactorsNonNa rp)
        · rw [if_pos hc]
          apply (propNegativeGeHalf_iff _).2
          rw [raterFactorsNonNa_negate, nonzeroCount_map_negOne, negCount_map_negOne]
          have hsum := nonzeroCount_eq_negCount_add_posCount (raterFactorsNonNa rp)
          exact ⟨hpos, by omega⟩
        · rw [if_neg hc]
          show propNegativeGeHalf (raterFactorsNonNa rp) = true
          apply (propNegativeGeHalf_iff _).2
          exact ⟨hpos, by omega⟩
    · intro hnz
      unfold flip_factors_for_identification
      have hcz : flipFactorsCore np rp = (np, rp) := by
        rw [hcore, if_neg (by omega)]
      rw [hcz]
      have hg : ¬(propNegativeGeHalf (raterFactorsNonNa rp) = true) := by
        intro h
        have := ((propNegativeGeHalf_iff _).1 h).1
        omega
      rw [if_neg hg]

/-- A concrete evaluation of `flip_factors_for_identification`: a single
rater with factor `-1` already satisfies the sign convention, so nothing is
flipped and the assertion passes. -/
theorem flip_factors_single_negative_eval :
    flip_factors_for_identification [] [RaterParamRow.mk 1 0 (some (-1)) 0] =
      some ([], [RaterParamRow.mk 1 0 (some (-1)) 0]) := by
  have hlt : propNegativeLtHalf
      (raterFactorsNonNa [RaterParamRow.mk 1 0 (some (-1)) 0]) = false := by
    cases h : propNegativeLtHalf (raterFactorsNonNa [RaterParamRow.mk 1 0 (some (-1)) 0])
    · rfl
    · have h2 := (propNegativeLtHalf_iff _).1 h
      revert h2; decide
  have hge : propNegativeGeHalf
      (raterFactorsNonNa [RaterParamRow.mk 1 0 (some (-1)) 0]) = true :=
    (propNegativeGeHalf_iff _).2 (by decide)
  simp [flip_factors_for_identification, flipFactorsCore, hlt, hge]

/-- Concrete instantiation of `flip_factors_negates_iff_prop_below_half`:
the postcondition holds on the returned tables of the run in
`flip_factors_single_negative_eval`. -/
theorem flip_factors_negates_iff_prop_below_half_witness :
    0 < nonzeroCount (raterFactorsNonNa [RaterParamRow.mk 1 0 (some (-1)) 0]) ∧
    nonzeroCount (raterFactorsNonNa [RaterParamRow.mk 1 0 (some (-1)) 0]) ≤
      2 * negCount (raterFactorsNonNa [RaterParamRow.mk 1 0 (some (-1)) 0]) :=
  (flip_factors_negates_iff_prop_below_half [] [RaterParamRow.mk 1 0 (some (-1)) 0]).2.1
    [] [RaterParamRow.mk 1 0 (some (-1)) 0] flip_factors_single_negative_eval

/-- C8: `flip_factors_for_identification` is idempotent — if one application
succeeds with result `(np', rp')`, applying it again to that result succeeds
and returns the result unchanged. -/
theorem flip_factors_idempotent
    (np : List NoteParamRow) (rp : List RaterParamRow)
    (np' : List NoteParamRow) (rp' : List RaterParamRow)
    (h : flip_factors_for_identification np rp = some (np', rp')) :
    flip_factors_for_identification np' rp' = some (np', rp') := by
  have hpost := (flip_factors_negates_iff_prop_below_half np rp).2.1 np' rp' h
  have hlt : ¬(propNegativeLtHalf (raterFactorsNonNa rp') = true) := by
    intro hl
    have := (propNegativeLtHalf_iff _).1 hl
    omega
  have hge : propNegativeGeHalf (raterFactorsNonNa rp') = true :=
    (propNegativeGeHalf_iff _).2 hpost
  unfold flip_factors_for_identification flipFactorsCore
  rw [if_neg hlt]
  rw [if_pos hge]

/-- Concrete instantiation of `flip_factors_idempotent`. -/
theorem flip_factors_idempotent_witness :
    flip_factors_for_identification [] [RaterParamRow.mk 1 0 (some (-1)) 0] =
      some ([], [RaterParamRow.mk 1 0 (some (-1)) 0]) :=
  flip_factors_idempotent [] [RaterParamRow.mk 1 0 (some (-1)) 0]
    [] [RaterParamRow.mk 1 0 (some (-1)) 0] flip_factors_single_negative_eval

/-- C9: the mutation performed by `flip_factors_for_identification` (which
happens on every input, before the final assertion is evaluated) changes at
most the `noteFactor1` and `raterFactor1` columns — the note ids, note
indices, note intercepts, rater ids, rater indices and rater intercepts of
both tables are unchanged (the global bias is not even an argument of the
function). -/
theorem flip_factors_frame
    (np : List NoteParamRow) (rp : List RaterParamRow) :
    ((flipFactorsCore np rp).1.map NoteParamRow.noteId = np.map NoteParamRow.noteId) ∧
    ((flipFactorsCore np rp).1.map NoteParamRow.noteIndex = np.map NoteParamRow.noteIndex) ∧
    ((flipFactorsCore np rp).1.map NoteParamRow.noteIntercept = np.map NoteParamRow.noteIntercept) ∧
    ((flipFactorsCore np rp).2.map RaterParamRow.raterParticipantId =
      rp.map RaterParamRow.raterParticipantId) ∧
    ((flipFactorsCore np rp).2.map RaterParamRow.raterIndex = rp.map RaterParamRow.raterIndex) ∧
    ((flipFactorsCore np rp).2.map RaterParamRow.raterIntercept =
      rp.map RaterParamRow.raterIntercept) := by
  unfold flipFactorsCore
  by_cases hb : propNegativeLtHalf (raterFactorsNonNa rp) = true
  · rw [if_pos hb]
    refine ⟨?_, ?_, ?_, ?_, ?_, ?_⟩ <;>
      simp [negateNoteFactors, negateRaterFactors, List.map_map]
  · rw [if_neg hb]
    exact ⟨rfl, rfl, rfl, rfl, rfl, rfl⟩

/-- C6: in every epoch of `run_mf` the minimized objective equals the mean
squared error of predictions against ratings plus, for every model parameter,
an L2 term with coefficient `l2_lambda * l2_intercept_multiplier` on the
intercept (bias) parameters — including the global intercept — and
`l2_lambda` on the factor parameters. -/
theorem run_mf_epoch_objective
    (m : BiasedMatrixFactorization) (row col : List Nat) (rating : List ℚ)
    (l2_lambda l2_intercept_multiplier : ℚ) :
    epochLoss m row col rating l2_lambda l2_intercept_multiplier =
      mseLoss (predictions m row col) rating
        + l2_lambda * l2_intercept_multiplier *
            (meanSq m.user_intercepts + meanSq m.item_intercepts
              + meanSq [m.global_intercept])
        + l2_lambda * (meanSq m.user_factors.join + meanSq m.item_factors.join) := by
  have h1 : containsIntercept "user_factors.weight" = false := rfl
  have h2 : containsIntercept "item_factors.weight" = false := rfl
  have h3 : containsIntercept "user_intercepts.weight" = true := rfl
  have h4 : containsIntercept "item_intercepts.weight" = true := rfl
  have h5 : containsIntercept "global_intercept" = true := rfl
  simp only [epochLoss, l2RegLoss, namedParameters, List.foldl_cons, List.foldl_nil,
    h1, h2, h3, h4, h5, Bool.false_eq_true, if_true, if_false]
  ring

/-! ### Lemmas about `dropDuplicates` -/

theorem mem_dropDuplicates {α : Type} [DecidableEq α] (l : List α) (x : α) :
    x ∈ dropDuplicates l ↔ x ∈ l := by
  induction l using dropDuplicates.induct with
  | case1 => simp [dropDuplicates]
  | case2 y ys ih =>
    rw [dropDuplicates]
    simp only [List.mem_cons, ih, List.mem_filter, decide_eq_true_eq]
    by_cases hx : x = y
    · simp [hx]
    · simp [hx]

theorem nodup_dropDuplicates {α : Type} [DecidableEq α] (l : List α) :
    (dropDuplicates l).Nodup := by
  induction l using dropDuplicates.induct with
  | case1 => simp [dropDuplicates]
  | case2 y ys ih =>
    rw [dropDuplicates, List.nodup_cons]
    refine ⟨?_, ih⟩
    intro hmem
    rw [mem_dropDuplicates, List.mem_filter] at hmem
    simp at hmem

/-- C10: `run_mf` mutates its `ratings` argument in place — after the call
the caller's table consists exactly of the rows without a missing value in
any column, in the original order; the dense note/rater index maps are built
only from ids of the retained (fully populated) rows. -/
theorem run_mf_mutates_ratings_in_place (ratings : List MFRatingRow) :
    (∀ r : MFRatingRow, r ∈ run_mf_ratings_after ratings ↔
      r ∈ ratings ∧ r.hasMissing = false) ∧
    (run_mf_ratings_after ratings).Sublist ratings ∧
    (∀ x, x ∈ run_mf_noteIdMap ratings →
      ∃ r, r ∈ run_mf_ratings_after ratings ∧ r.noteId = x) ∧
    (∀ x, x ∈ run_mf_raterIdMap ratings →
      ∃ r, r ∈ run_mf_ratings_after ratings ∧ r.raterParticipantId = x) := by
  refine ⟨?_, ?_, ?_, ?_⟩
  · intro r
    simp [run_mf_ratings_after, List.mem_filter]
  · exact List.filter_sublist _
  · intro x hx
    rw [run_mf_noteIdMap, mem_dropDuplicates] at hx
    obtain ⟨r, hr, h⟩ := List.mem_map.1 hx
    exact ⟨r, hr, h⟩
  · intro x hx
    rw [run_mf_raterIdMap, mem_dropDuplicates] at hx
    obtain ⟨r, hr, h⟩ := List.mem_map.1 hx
    exact ⟨r, hr, h⟩

/-- Concrete instantiation of `run_mf_mutates_ratings_in_place`: a fully
populated row survives the in-place `dropna` while a row with a missing
rater id does not. -/
theorem run_mf_mutates_ratings_in_place_witness :
    MFRatingRow.mk (some 1) (some 2) (some 1) (some 0) ∈
      run_mf_ratings_after
        [MFRatingRow.mk (some 1) (some 2) (some 1) (some 0),
         MFRatingRow.mk none (some 3) (some 0) (some 0)] ∧
    ¬(MFRatingRow.mk none (some 3) (some 0) (some 0) ∈
      run_mf_ratings_after
        [MFRatingRow.mk (some 1) (some 2) (some 1) (some 0),
         MFRatingRow.mk none (some 3) (some 0) (some 0)]) := by
  constructor
  · exact ((run_mf_mutates_ratings_in_place
      [MFRatingRow.mk (some 1) (some 2) (some 1) (some 0),
       MFRatingRow.mk none (some 3) (some 0) (some 0)]).1 _).2 ⟨by decide, by decide⟩
  · intro h
    have := ((run_mf_mutates_ratings_in_place
      [MFRatingRow.mk (some 1) (some 2) (some 1) (some 0),
       MFRatingRow.mk none (some 3) (some 0) (some 0)]).1 _).1 h
    revert this
    decide

theorem assignHelpfulNum_eq_helpfulNumSpec (r : RatingRow) :
    assignHelpfulNum r = helpfulNumSpec r := by
  unfold assignHelpfulNum helpfulNumSpec
  split_ifs <;> simp_all [notHelpfulValueTsv, somewhatHelpfulValueTsv, helpfulValueTsv]

theorem helpfulNumSpec_mem_values (r : RatingRow) (q : ℚ)
    (h : helpfulNumSpec r = some q) : q = 0 ∨ q = 1 / 2 ∨ q = 1 := by
  unfold helpfulNumSpec at h
  split_ifs at h <;> simp_all


/-- C3 (amended): every row retained by the helpfulness unification carries a
`helpfulNum` in `{0, 1/2, 1}` equal to the precedence-respecting mapping of
its raw signals (a recognized categorical level decides; otherwise the
not-helpful flag; otherwise the helpful flag), and every row with no
recognized signal is absent from the unified table. -/
theorem helpfulness_unification_amended (ratings : List RatingRow) :
    (∀ r q, (r, q) ∈ unifyHelpfulness ratings →
      (q = 0 ∨ q = 1 / 2 ∨ q = 1) ∧ helpfulNumSpec r = some q ∧ r ∈ ratings) ∧
    (∀ r, r ∈ ratings → helpfulNumSpec r = none →
      ∀ q, (r, q) ∉ unifyHelpfulness ratings) ∧
    (∀ r, helpfulNumSpec r = none ↔
      (r.helpful ≠ some 1 ∧ r.notHelpful ≠ some 1 ∧
       r.helpfulnessLevel ≠ some notHelpfulValueTsv ∧
       r.helpfulnessLevel ≠ some somewhatHelpfulValueTsv ∧
       r.helpfulnessLevel ≠ some helpfulValueTsv)) := by
  refine ⟨?_, ?_, ?_⟩
  · intro r q hmem
    rw [unifyHelpfulness] at hmem
    obtain ⟨a, ha, hfa⟩ := List.mem_filterMap.1 hmem
    obtain ⟨q', hq', heq⟩ := Option.map_eq_some'.1 hfa
    simp only [Prod.mk.injEq] at heq
    obtain ⟨rfl, rfl⟩ := heq
    rw [assignHelpfulNum_eq_helpfulNumSpec] at hq'
    exact ⟨helpfulNumSpec_mem_values a q' hq', hq', ha⟩
  · intro r hr hnone q hmem
    rw [unifyHelpfulness] at hmem
    obtain ⟨a, ha, hfa⟩ := List.mem_filterMap.1 hmem
    obtain ⟨q', hq', heq⟩ := Option.map_eq_some'.1 hfa
    simp only [Prod.mk.injEq] at heq
    obtain ⟨rfl, rfl⟩ := heq
    rw [assignHelpfulNum_eq_helpfulNumSpec, hnone] at hq'
    exact Option.noConfusion hq'
  · intro r
    unfold helpfulNumSpec
    split_ifs <;> simp_all

/-- Counterexample to C3 as stated: a row carrying both the V1 helpful flag
and the V2 categorical not-helpful level is retained with `helpfulNum = 0`,
not the `1.0` that "helpful-flag=1 gives 1.0" would dictate — the later
categorical assignment overwrites the flag assignment. -/
theorem helpful_flag_overridden_by_categorical_not_helpful :
    unifyHelpfulness [RatingRow.mk 1 2 0 (some 1) none (some notHelpfulValueTsv)] =
      [(RatingRow.mk 1 2 0 (some 1) none (some notHelpfulValueTsv), 0)] ∧
    (0 : ℚ) ≠ 1 := by
  constructor
  · decide
  · decide

/-- Concrete instantiation of `helpfulness_unification_amended`. -/
theorem helpfulness_unification_amended_witness :
    ((0 : ℚ) = 0 ∨ (0 : ℚ) = 1 / 2 ∨ (0 : ℚ) = 1) ∧
    helpfulNumSpec (RatingRow.mk 1 2 0 none (some 1) none) = some 0 ∧
    RatingRow.mk 1 2 0 none (some 1) none ∈
      [RatingRow.mk 1 2 0 none (some 1) none] :=
  (helpfulness_unification_amended [RatingRow.mk 1 2 0 none (some 1) none]).1
    (RatingRow.mk 1 2 0 none (some 1) none) 0 (by decide)

theorem filter_eq_find_of_nodup {α β : Type} [DecidableEq β] (key : α → β)
    (l : List α) (hn : (l.map key).Nodup) (b : β) :
    l.filter (fun a => key a == b) = (l.find? (fun a => key a == b)).toList := by
  induction l with
  | nil => rfl
  | cons a l ih =>
    rw [List.map_cons, List.nodup_cons] at hn
    by_cases h : key a = b
    · have hrest : l.filter (fun a => key a == b) = [] := by
        rw [List.filter_eq_nil]
        intro x hx hkey
        rw [beq_iff_eq] at hkey
        exact hn.1 (h ▸ hkey ▸ List.mem_map_of_mem key hx)
      simp [List.filter_cons, List.find?, h, hrest]
    · have hb : (key a == b) = false := by simp [h]
      simp only [List.filter_cons, List.find?, hb]
      exact ih hn.2

theorem mergeClassification_eq (ratings : List RatingRow) (notes : List NoteRow)
    (hn : (notes.map NoteRow.noteId).Nodup) :
    mergeClassification ratings notes =
      ratings.map (fun r => (r, classificationOf notes r.noteId)) := by
  induction ratings with
  | nil => rfl
  | cons r rs ih =>
    have step : mergeClassification (r :: rs) notes =
        (let ms := notes.filter (fun n => n.noteId == r.noteId)
         if ms.isEmpty then [(r, none)] else ms.map (fun n => (r, n.classification)))
          ++ mergeClassification rs notes := rfl
    rw [step, ih]
    simp only [filter_eq_find_of_nodup NoteRow.noteId notes hn r.noteId]
    cases hf : notes.find? (fun n => n.noteId == r.noteId) <;>
      simp [classificationOf, hf]

theorem mergeNSH_eq (merged : List (RatingRow × Option String))
    (nsh : List NoteStatusHistoryRow)
    (hn : (nsh.map NoteStatusHistoryRow.noteId).Nodup) :
    mergeNSH merged nsh =
      merged.map (fun p => (p.1, p.2, nshCreatedAtOf nsh p.1.noteId)) := by
  induction merged with
  | nil => rfl
  | cons p ps ih =>
    have step : mergeNSH (p :: ps) nsh =
        (let ms := nsh.filter (fun h => h.noteId == p.1.noteId)
         if ms.isEmpty then [(p.1, p.2, none)]
         else ms.map (fun h => (p.1, p.2, h.createdAtMillis)))
          ++ mergeNSH ps nsh := rfl
    rw [step, ih]
    simp only [filter_eq_find_of_nodup NoteStatusHistoryRow.noteId nsh hn p.1.noteId]
    cases hf : nsh.find? (fun h => h.noteId == p.1.noteId) <;>
      simp [nshCreatedAtOf, hf]


theorem keepCond_iff (c : Option String) (d : Option ℚ) :
    ((!c.isNone && decide (c = some notesSaysTweetIsMisleadingKey)) ||
      (c.isNone && !d.isNone)) = true ↔
      (c = some notesSaysTweetIsMisleadingKey ∨ (c = none ∧ d ≠ none)) := by
  cases c <;> cases d <;> simp

/-- C4 (amended): with unique note ids in the notes and note-status-history
tables, `_filter_misleading_notes` keeps a rating exactly when its note's
classification says the tweet is misleading, or the classification is absent
(deleted note) and the note's `createdAtMillis` in noteStatusHistory is
present and non-missing. -/
theorem filter_misleading_keeps_iff (notes : List NoteRow) (ratings : List RatingRow)
    (nsh : List NoteStatusHistoryRow)
    (hnotes : (notes.map NoteRow.noteId).Nodup)
    (hnsh : (nsh.map NoteStatusHistoryRow.noteId).Nodup)
    (r : RatingRow) :
    r ∈ _filter_misleading_notes notes ratings nsh ↔
      r ∈ ratings ∧
        (classificationOf notes r.noteId = some notesSaysTweetIsMisleadingKey ∨
         (classificationOf notes r.noteId = none ∧ nshCreatedAtOf nsh r.noteId ≠ none)) := by
  unfold _filter_misleading_notes
  rw [mergeClassification_eq ratings notes hnotes, mergeNSH_eq _ nsh hnsh]
  simp only [List.map_map, Function.comp]
  constructor
  · intro hmem
    obtain ⟨t, ht, rfl⟩ := List.mem_map.1 hmem
    obtain ⟨ht', hcond⟩ := List.mem_filter.1 ht
    obtain ⟨a, ha, rfl⟩ := List.mem_map.1 ht'
    exact ⟨ha, (keepCond_iff _ _).1 hcond⟩
  · intro ⟨hr, hcond⟩
    apply List.mem_map.2
    refine ⟨(r, classificationOf notes r.noteId, nshCreatedAtOf nsh r.noteId), ?_, rfl⟩
    apply List.mem_filter.2
    refine ⟨List.mem_map.2 ⟨r, hr, rfl⟩, (keepCond_iff _ _).2 hcond⟩

/-- Counterexample to C4 as stated: a rating on a deleted note (no
classification anywhere) whose note id does appear in noteStatusHistory is
nonetheless dropped when that history row's `createdAtMillis` is missing —
the code tests the joined timestamp for `NaN`, not membership of the id, so
the claimed keep-iff biconditional fails at this input. -/
theorem deleted_note_in_nsh_with_missing_timestamp_is_dropped :
    ¬ (RatingRow.mk 1 5 0 none none none ∈
        _filter_misleading_notes [] [RatingRow.mk 1 5 0 none none none]
          [NoteStatusHistoryRow.mk 5 none] ↔
      (classificationOf [] 5 = some notesSaysTweetIsMisleadingKey ∨
        (classificationOf [] 5 = none ∧
         5 ∈ ([NoteStatusHistoryRow.mk 5 none].map NoteStatusHistoryRow.noteId)))) := by
  decide

/-- Concrete instantiation of `filter_misleading_keeps_iff`: a rating on a
note classified as misleading is kept. -/
theorem filter_misleading_keeps_iff_witness :
    RatingRow.mk 1 7 0 none none none ∈
      _filter_misleading_notes [NoteRow.mk 7 (some notesSaysTweetIsMisleadingKey)]
        [RatingRow.mk 1 7 0 none none none] [] :=
  (filter_misleading_keeps_iff [NoteRow.mk 7 (some notesSaysTweetIsMisleadingKey)]
      [RatingRow.mk 1 7 0 none none none] [] (by decide) (by decide)
      (RatingRow.mk 1 7 0 none none none)).2 ⟨by decide, Or.inl (by decide)⟩


theorem noteRatingCount_filter_of_all (t : List RatingTriplet) (p : RatingTriplet → Bool)
    (nid : Nat) (h : ∀ r ∈ t, r.noteId = nid → p r = true) :
    noteRatingCount (t.filter p) nid = noteRatingCount t nid := by
  unfold noteRatingCount
  rw [List.filter_filter]
  congr 1
  apply List.filter_congr
  intro a ha
  by_cases hid : a.noteId = nid
  · simp [hid, h a ha hid]
  · simp [hid]

theorem mem_filterNotes_count (m1 : Nat) (t : List RatingTriplet) (r : RatingTriplet)
    (hr : r ∈ filterNotesWithMinRatings m1 t) :
    m1 ≤ noteRatingCount (filterNotesWithMinRatings m1 t) r.noteId := by
  unfold filterNotesWithMinRatings at hr ⊢
  obtain ⟨hmem, hcnt⟩ := List.mem_filter.1 hr
  rw [decide_eq_true_eq] at hcnt
  rw [noteRatingCount_filter_of_all]
  · exact hcnt
  · intro x hx hid
    show decide (m1 ≤ noteRatingCount t x.noteId) = true
    rw [hid, decide_eq_true_eq]
    exact hcnt

/-- C5: `filter_ratings` is exactly the three passes note-filter,
rater-filter, note-filter (no further iteration); every note present in the
final table retains at least `minNumRatersPerNote` ratings there; and there
is an input on which a rater left in the final table ends below
`minNumRatingsPerRater` (the approximation the two-pass design accepts). -/
theorem filter_ratings_spec (m1 m2 : Nat) (ratings : List RatingTriplet) :
    (filter_ratings m1 m2 ratings =
      filterNotesWithMinRatings m1
        (filterRatersWithMinRatings m2 (filterNotesWithMinRatings m1 ratings))) ∧
    (∀ r, r ∈ filter_ratings m1 m2 ratings →
      m1 ≤ noteRatingCount (filter_ratings m1 m2 ratings) r.noteId) ∧
    (∃ (n1 n2 : Nat) (rs : List RatingTriplet) (r : RatingTriplet),
      r ∈ filter_ratings n1 n2 rs ∧
      raterRatingCount (filter_ratings n1 n2 rs) r.raterParticipantId < n2) := by
  refine ⟨rfl, ?_, ?_⟩
  · intro r hr
    exact mem_filterNotes_count m1
      (filterRatersWithMinRatings m2 (filterNotesWithMinRatings m1 ratings)) r hr
  · exact ⟨2, 2, [RatingTriplet.mk 1 1 0 0, RatingTriplet.mk 4 1 0 0,
      RatingTriplet.mk 1 3 0 0, RatingTriplet.mk 3 3 0 0,
      RatingTriplet.mk 2 2 0 0, RatingTriplet.mk 3 2 0 0],
      RatingTriplet.mk 1 3 0 0, by decide, by decide⟩

/-- Concrete instantiation of `filter_ratings_spec`: on the six-rating
example, note 3 keeps its two ratings in the final table. -/
theorem filter_ratings_spec_witness :
    2 ≤ noteRatingCount
      (filter_ratings 2 2 [RatingTriplet.mk 1 1 0 0, RatingTriplet.mk 4 1 0 0,
        RatingTriplet.mk 1 3 0 0, RatingTriplet.mk 3 3 0 0,
        RatingTriplet.mk 2 2 0 0, RatingTriplet.mk 3 2 0 0]) 3 := by
  have h := (filter_ratings_spec 2 2 [RatingTriplet.mk 1 1 0 0, RatingTriplet.mk 4 1 0 0,
    RatingTriplet.mk 1 3 0 0, RatingTriplet.mk 3 3 0 0,
    RatingTriplet.mk 2 2 0 0, RatingTriplet.mk 3 2 0 0]).2.1
    (RatingTriplet.mk 1 3 0 0) (by decide)
  exact h

theorem dropDuplicates_sublist {α : Type} [DecidableEq α] (l : List α) :
    (dropDuplicates l).Sublist l := by
  induction l using dropDuplicates.induct with
  | case1 => simp [dropDuplicates]
  | case2 x xs ih =>
    rw [dropDuplicates]
    exact List.Sublist.cons₂ x (ih.trans (List.filter_sublist xs))

theorem dropDuplicates_eq_self_of_nodup {α : Type} [DecidableEq α] (l : List α)
    (h : l.Nodup) : dropDuplicates l = l := by
  induction l using dropDuplicates.induct with
  | case1 => rw [dropDuplicates]
  | case2 x xs ih =>
    rw [List.nodup_cons] at h
    have hf : xs.filter (fun y => decide (y ≠ x)) = xs := by
      apply List.filter_eq_self.2
      intro y hy
      simp only [decide_eq_true_eq]
      intro he
      exact h.1 (he ▸ hy)
    rw [dropDuplicates, hf]
    rw [hf] at ih
    rw [ih h.2]

theorem length_dropDuplicates_eq_iff {α : Type} [DecidableEq α] (l : List α) :
    (dropDuplicates l).length = l.length ↔ l.Nodup := by
  constructor
  · intro h
    have heq := (dropDuplicates_sublist l).eq_of_length h
    rw [← heq]
    exact nodup_dropDuplicates l
  · intro h
    rw [dropDuplicates_eq_self_of_nodup l h]

/-- C7: whenever `remove_duplicate_ratings` returns, every
(rater id, note id) pair occurs exactly once in the result; it returns `none`
(the `AssertionError`) exactly when some pair still repeats after
`drop_duplicates`; and likewise for `remove_duplicate_notes` with note
ids. -/
theorem remove_duplicates_ensure_unique_keys :
    (∀ (ratings out : List RatingRow), remove_duplicate_ratings ratings = some out →
      (out.map (fun r => (r.raterParticipantId, r.noteId))).Nodup) ∧
    (∀ ratings : List RatingRow, (remove_duplicate_ratings ratings = none ↔
      ¬ ((dropDuplicates ratings).map
          (fun r => (r.raterParticipantId, r.noteId))).Nodup)) ∧
    (∀ (notes out : List NoteRow), remove_duplicate_notes notes = some out →
      (out.map NoteRow.noteId).Nodup) ∧
    (∀ notes : List NoteRow, (remove_duplicate_notes notes = none ↔
      ¬ ((dropDuplicates notes).map NoteRow.noteId).Nodup)) := by
  have keyRatings : ∀ ratings : List RatingRow,
      ((dropDuplicates ratings).length =
        (dropDuplicates ((dropDuplicates ratings).map
          (fun r => (r.raterParticipantId, r.noteId)))).length ↔
        ((dropDuplicates ratings).map
          (fun r => (r.raterParticipantId, r.noteId))).Nodup) := by
    intro ratings
    rw [← length_dropDuplicates_eq_iff, List.length_map]
    constructor <;> intro h <;> omega
  have keyNotes : ∀ notes : List NoteRow,
      ((dropDuplicates notes).length =
        (dropDuplicates ((dropDuplicates notes).map NoteRow.noteId)).length ↔
        ((dropDuplicates notes).map NoteRow.noteId).Nodup) := by
    intro notes
    rw [← length_dropDuplicates_eq_iff, List.length_map]
    constructor <;> intro h <;> omega
  refine ⟨?_, ?_, ?_, ?_⟩
  · intro ratings out h
    unfold remove_duplicate_ratings at h
    by_cases hc : (dropDuplicates ratings).length =
        (dropDuplicates ((dropDuplicates ratings).map
          (fun r => (r.raterParticipantId, r.noteId)))).length
    · rw [if_pos hc] at h
      obtain rfl := Option.some.inj h
      exact (keyRatings ratings).1 hc
    · rw [if_neg hc] at h
      exact absurd h (by simp)
  · intro ratings
    unfold remove_duplicate_ratings
    by_cases hc : (dropDuplicates ratings).length =
        (dropDuplicates ((dropDuplicates ratings).map
          (fun r => (r.raterParticipantId, r.noteId)))).length
    · rw [if_pos hc]
      simp [(keyRatings ratings).1 hc]
    · rw [if_neg hc]
      simp only [true_iff]
      intro hn
      exact hc ((keyRatings ratings).2 hn)
  · intro notes out h
    unfold remove_duplicate_notes at h
    by_cases hc : (dropDuplicates notes).length =
        (dropDuplicates ((dropDuplicates notes).map NoteRow.noteId)).length
    · rw [if_pos hc] at h
      obtain rfl := Option.some.inj h
      exact (keyNotes notes).1 hc
    · rw [if_neg hc] at h
      exact absurd h (by simp)
  · intro notes
    unfold remove_duplicate_notes
    by_cases hc : (dropDuplicates notes).length =
        (dropDuplicates ((dropDuplicates notes).map NoteRow.noteId)).length
    · rw [if_pos hc]
      simp [(keyNotes notes).1 hc]
    · rw [if_neg hc]
      simp only [true_iff]
      intro hn
      exact hc ((keyNotes notes).2 hn)

/-- Concrete instantiation of `remove_duplicates_ensure_unique_keys`: a
two-row table whose rows are exact duplicates dedups to one row with unique
keys. -/
theorem remove_duplicates_ensure_unique_keys_witness :
    (([NoteRow.mk 4 none] : List NoteRow).map NoteRow.noteId).Nodup :=
  remove_duplicates_ensure_unique_keys.2.2.1
    [NoteRow.mk 4 none, NoteRow.mk 4 none] [NoteRow.mk 4 none]
    (by simp [remove_duplicate_notes, dropDuplicates])
